import Mathlib

/-!
Verification of the Favorites Persistence & Rendering component of
`script.js` (image-favorites gallery persisted through browser storage).

The development shallowly embeds the favorites-related code:

* a model of `JSON.parse` / `JSON.stringify` restricted to the values the
  code produces (`jsonParse`, `stringifyList`), with `Except` marking the
  `SyntaxError` that `JSON.parse` throws on malformed text;
* the Storage Adapter (`loadFavorites`, the value stored under
  `DEFAULT_STORAGE_KEY` modelled as `Option String`, `none` = key absent);
* the Favorites Store operations `saveFavorite` / `removeFavorite` /
  clearing, both on the decoded list and on the raw storage state;
* the Gallery Renderer (`renderGallery` plus the filter handler) as a pure
  projection to thumbnail descriptors;
* the Modal Controller (`openModal` / `closeModal`).

Strings are modelled as Lean strings (sequences of Unicode scalar values);
the ASCII-only case distinctions of the source (`toLowerCase`, `trim`)
are modelled by ASCII-faithful functions.
-/

/-- A parsed JSON value.  Numbers are kept as their lexeme (the source never
inspects numeric values), objects as association lists in source order. -/
inductive Json where
  | null : Json
  | bool (b : Bool) : Json
  | num (lexeme : String) : Json
  | str (s : String) : Json
  | arr (elems : List Json) : Json
  | obj (fields : List (String × Json)) : Json

/-- Hex digit character for a value below 16, lowercase as produced by
`JSON.stringify` when it emits a control-character escape. -/
def hexDigitChar (n : Nat) : Char :=
  if n < 10 then Char.ofNat (48 + n) else Char.ofNat (87 + n)

/-- Value of a hex digit character, accepting both cases (as `JSON.parse`
does for the four digits of a `\uXXXX` escape). -/
def hexVal (c : Char) : Option Nat :=
  if 48 ≤ c.toNat ∧ c.toNat ≤ 57 then some (c.toNat - 48)
  else if 97 ≤ c.toNat ∧ c.toNat ≤ 102 then some (c.toNat - 87)
  else if 65 ≤ c.toNat ∧ c.toNat ≤ 70 then some (c.toNat - 55)
  else none

/-- How `JSON.stringify` escapes one character of a string: `"` and `\`
get a backslash escape, the five named control characters get their short
escapes, other control characters get `\u00XX`, everything else is kept. -/
def escapeChar (c : Char) : List Char :=
  if c = '"' then ['\\', '"']
  else if c = '\\' then ['\\', '\\']
  else if c = '\u0008' then ['\\', 'b']
  else if c = '\t' then ['\\', 't']
  else if c = '\n' then ['\\', 'n']
  else if c = '\u000c' then ['\\', 'f']
  else if c = '\r' then ['\\', 'r']
  else if c.toNat < 32 then
    ['\\', 'u', '0', '0', hexDigitChar (c.toNat / 16), hexDigitChar (c.toNat % 16)]
  else [c]

/-- `JSON.stringify` escaping of a whole string body. -/
def escapeString : List Char → List Char
  | [] => []
  | c :: cs => escapeChar c ++ escapeString cs

/-- The character a single-character JSON escape sequence denotes. -/
def unescapeChar : Char → Option Char
  | '"' => some '"'
  | '\\' => some '\\'
  | '/' => some '/'
  | 'b' => some '\u0008'
  | 'f' => some '\u000c'
  | 'n' => some '\n'
  | 'r' => some '\r'
  | 't' => some '\t'
  | _ => none

/-- Parse the body of a JSON string literal (the opening quote already
consumed): returns the decoded characters and the input after the closing
quote.  Unescaped control characters are a syntax error, as in `JSON.parse`. -/
def parseStringBody : List Char → Except Unit (List Char × List Char)
  | [] => Except.error ()
  | c :: cs =>
    if c = '"' then Except.ok ([], cs)
    else if c = '\\' then
      match cs with
      | 'u' :: h1 :: h2 :: h3 :: h4 :: rest =>
        (match hexVal h1, hexVal h2, hexVal h3, hexVal h4 with
         | some a, some b, some c2, some d =>
           Except.map (fun p => (Char.ofNat (a * 4096 + b * 256 + c2 * 16 + d) :: p.1, p.2))
             (parseStringBody rest)
         | _, _, _, _ => Except.error ())
      | e :: rest =>
        (match unescapeChar e with
         | some u => Except.map (fun p => (u :: p.1, p.2)) (parseStringBody rest)
         | none => Except.error ())
      | [] => Except.error ()
    else if c.toNat < 32 then Except.error ()
    else Except.map (fun p => (c :: p.1, p.2)) (parseStringBody cs)

/-- Skip JSON whitespace (space, tab, line feed, carriage return). -/
def skipWs : List Char → List Char
  | [] => []
  | c :: cs => if c = ' ' ∨ c = '\t' ∨ c = '\n' ∨ c = '\r' then skipWs cs else c :: cs

/-- Longest prefix of decimal digits, with the rest of the input. -/
def takeDigits : List Char → List Char × List Char
  | [] => ([], [])
  | c :: cs =>
    if c.isDigit then (let p := takeDigits cs; (c :: p.1, p.2)) else ([], c :: cs)

/-- Lex the integer part of a JSON number: `0`, or a nonzero digit followed
by digits (so `01` stops after the `0`, making the stray digit a syntax
error in every context, as for `JSON.parse`). -/
def lexIntPart : List Char → Except Unit (List Char × List Char)
  | [] => Except.error ()
  | c :: cs =>
    if c = '0' then Except.ok (['0'], cs)
    else if c.isDigit then (let p := takeDigits cs; Except.ok (c :: p.1, p.2))
    else Except.error ()

/-- Lex an optional fraction part `.digits`. -/
def lexFracPart : List Char → Except Unit (List Char × List Char)
  | '.' :: cs =>
    (let p := takeDigits cs
     if p.1 = [] then Except.error () else Except.ok ('.' :: p.1, p.2))
  | cs => Except.ok ([], cs)

/-- Lex an optional exponent part `(e|E)(+|-)? digits`. -/
def lexExpPart : List Char → Except Unit (List Char × List Char)
  | [] => Except.ok ([], [])
  | c :: cs =>
    if c = 'e' ∨ c = 'E' then
      match cs with
      | [] => Except.error ()
      | s :: cs2 =>
        if s = '+' ∨ s = '-' then
          (let p := takeDigits cs2
           if p.1 = [] then Except.error () else Except.ok (c :: s :: p.1, p.2))
        else
          (let p := takeDigits (s :: cs2)
           if p.1 = [] then Except.error () else Except.ok (c :: p.1, p.2))
    else Except.ok ([], c :: cs)

/-- Lex a complete JSON number, keeping its lexeme. -/
def parseNumberLex (cs : List Char) : Except Unit (Json × List Char) := do
  let (sgn, cs1) :=
    match cs with
    | '-' :: rest => ((['-'] : List Char), rest)
    | _ => (([] : List Char), cs)
  let (ip, cs2) ← lexIntPart cs1
  let (fp, cs3) ← lexFracPart cs2
  let (ep, cs4) ← lexExpPart cs3
  Except.ok (Json.num (String.mk (sgn ++ ip ++ fp ++ ep)), cs4)

/-- Parser modes: a single value, the continuation of an array after one
element, the continuation of an object after one member. -/
inductive PM where
  | val : PM
  | els : PM
  | mems : PM

/-- One layer of the JSON grammar; `r` parses strictly nested input.
Array/object continuations return `Json.arr` / `Json.obj` of the remaining
elements.  Follows the grammar accepted by `JSON.parse`. -/
def parseJStep (r : PM → List Char → Except Unit (Json × List Char)) :
    PM → List Char → Except Unit (Json × List Char)
  | PM.val, cs =>
    (match skipWs cs with
     | [] => Except.error ()
     | c :: rest =>
       if c = '"' then
         Except.map (fun p => (Json.str (String.mk p.1), p.2)) (parseStringBody rest)
       else if c = '[' then
         (match skipWs rest with
          | [] => Except.error ()
          | c2 :: rest2 =>
            if c2 = ']' then Except.ok (Json.arr [], rest2)
            else
              Except.bind (r PM.val (c2 :: rest2)) (fun vp =>
                Except.bind (r PM.els vp.2) (fun ep =>
                  match ep.1 with
                  | Json.arr l => Except.ok (Json.arr (vp.1 :: l), ep.2)
                  | _ => Except.error ())))
       else if c = '\x7b' then
         (match skipWs rest with
          | [] => Except.error ()
          | c2 :: rest2 =>
            if c2 = '\x7d' then Except.ok (Json.obj [], rest2)
            else if c2 = '"' then
              Except.bind (parseStringBody rest2) (fun kp =>
                match skipWs kp.2 with
                | ':' :: rest3 =>
                  Except.bind (r PM.val rest3) (fun vp =>
                    Except.bind (r PM.mems vp.2) (fun mp =>
                      match mp.1 with
                      | Json.obj fs =>
                        Except.ok (Json.obj ((String.mk kp.1, vp.1) :: fs), mp.2)
                      | _ => Except.error ()))
                | _ => Except.error ())
            else Except.error ())
       else if c = 't' then
         (match rest with
          | 'r' :: 'u' :: 'e' :: rest2 => Except.ok (Json.bool true, rest2)
          | _ => Except.error ())
       else if c = 'f' then
         (match rest with
          | 'a' :: 'l' :: 's' :: 'e' :: rest2 => Except.ok (Json.bool false, rest2)
          | _ => Except.error ())
       else if c = 'n' then
         (match rest with
          | 'u' :: 'l' :: 'l' :: rest2 => Except.ok (Json.null, rest2)
          | _ => Except.error ())
       else if c = '-' ∨ c.isDigit then parseNumberLex (c :: rest)
       else Except.error ())
  | PM.els, cs =>
    (match skipWs cs with
     | [] => Except.error ()
     | c :: rest =>
       if c = ']' then Except.ok (Json.arr [], rest)
       else if c = ',' then
         Except.bind (r PM.val rest) (fun vp =>
           Except.bind (r PM.els vp.2) (fun ep =>
             match ep.1 with
             | Json.arr l => Except.ok (Json.arr (vp.1 :: l), ep.2)
             | _ => Except.error ()))
       else Except.error ())
  | PM.mems, cs =>
    (match skipWs cs with
     | [] => Except.error ()
     | c :: rest =>
       if c = '\x7d' then Except.ok (Json.obj [], rest)
       else if c = ',' then
         (match skipWs rest with
          | '"' :: rest2 =>
            Except.bind (parseStringBody rest2) (fun kp =>
              match skipWs kp.2 with
              | ':' :: rest3 =>
                Except.bind (r PM.val rest3) (fun vp =>
                  Except.bind (r PM.mems vp.2) (fun mp =>
                    match mp.1 with
                    | Json.obj fs =>
                      Except.ok (Json.obj ((String.mk kp.1, vp.1) :: fs), mp.2)
                    | _ => Except.error ()))
              | _ => Except.error ())
          | _ => Except.error ())
       else Except.error ())

/-- Fuel-indexed JSON parser; the fuel only bounds nesting of the grammar
and is chosen generously by `jsonParse`. -/
def parseJ : Nat → PM → List Char → Except Unit (Json × List Char)
  | 0 => fun _ _ => Except.error ()
  | f + 1 => parseJStep (parseJ f)

/-- Model of `JSON.parse`: parse one value surrounded by optional
whitespace; anything else (including a malformed prefix or trailing
input) is the thrown `SyntaxError`, modelled as `Except.error ()`. -/
def jsonParse (s : String) : Except Unit Json :=
  match parseJ (2 * s.data.length + 2) PM.val s.data with
  | Except.ok (v, rest) => if skipWs rest = [] then Except.ok v else Except.error ()
  | Except.error _ => Except.error ()

/-- Characters of `JSON.stringify` of one string (quotes plus escaping). -/
def stringifyStrChars (s : String) : List Char :=
  '"' :: escapeString s.data ++ ['"']

/-- Characters of the `,`-separated remainder of a stringified array. -/
def elemsTail : List String → List Char
  | [] => []
  | x :: xs => ',' :: stringifyStrChars x ++ elemsTail xs

/-- Characters of `JSON.stringify` of an array of strings. -/
def stringifyListChars : List String → List Char
  | [] => ['[', ']']
  | x :: xs => '[' :: stringifyStrChars x ++ elemsTail xs ++ [']']

/-- `JSON.stringify` applied to an array of strings — the only shape the
source ever stringifies (script.js line 86). -/
def stringifyList (l : List String) : String :=
  String.mk (stringifyListChars l)


/-- The fixed storage key (script.js line 17). -/
def DEFAULT_STORAGE_KEY : String := "interactive_favorites_v1"

/-- `localStorage.getItem(DEFAULT_STORAGE_KEY) || "[]"` (script.js lines
80-82 and 251): JavaScript `||` substitutes the default both for `null`
(absent key) and for the falsy empty string. -/
def getItemOrDefault : Option String → String
  | none => "[]"
  | some s => if s = "" then "[]" else s

/-- The Storage Adapter's load:
`JSON.parse(localStorage.getItem(DEFAULT_STORAGE_KEY) || "[]")`
(script.js lines 80-82, 251, 287).  An `Except.error` is the `SyntaxError`
thrown by `JSON.parse` on a malformed stored value, which propagates to
the caller — there is no surrounding try/catch in the source. -/
def loadFavorites (st : Option String) : Except Unit Json :=
  jsonParse (getItemOrDefault st)

/-- Read a parsed JSON array's elements back as strings (the shape the
source's own writes produce); anything else is `none`. -/
def strListOfJson : List Json → Option (List String)
  | [] => some []
  | Json.str s :: rest => Option.map (fun l => s :: l) (strListOfJson rest)
  | _ :: _ => none

/-- A parsed JSON value as an array of strings, when it is one. -/
def asStringList : Json → Option (List String)
  | Json.arr xs => strListOfJson xs
  | _ => none

/-- The favorites list encoded by a storage state: `some l` exactly when
the stored value (or its absent-key default) parses as an array of
strings `l`. -/
def decodeFavState (st : Option String) : Option (List String) :=
  match loadFavorites st with
  | Except.ok j => asStringList j
  | Except.error _ => none

/-- The list-level effect of `saveFavorite` (script.js lines 79-89):
`if (!current.includes(url)) current.unshift(url)` — skip when present
(case-sensitive string equality), otherwise prepend. -/
def saveFavorite (current : List String) (url : String) : List String :=
  if url ∈ current then current else url :: current

/-- The list-level effect of `removeFavorite` (script.js lines 286-291):
`items.filter((u) => u !== url)` — drop all exact matches; total, so an
absent url is a no-op rather than an error. -/
def removeFavorite (items : List String) (url : String) : List String :=
  items.filter (fun u => u != url)

/-- `saveFavorite` on the storage state: parse the stored value, and when
the url is absent, `unshift` it and `setItem(JSON.stringify(current))`.
When the stored value does not parse as an array of strings the source
throws (in `JSON.parse` or in `includes`/`unshift`) before any `setItem`,
leaving the stored value unchanged; the theorems only use well-formed
states. -/
def saveFavoriteSt (st : Option String) (url : String) : Option String :=
  match decodeFavState st with
  | some current =>
    if url ∈ current then st else some (stringifyList (url :: current))
  | none => st

/-- `removeFavorite` on the storage state: parse, filter, and always
`setItem` the filtered result (script.js lines 287-289).  As above, a
malformed state throws before `setItem` and is left unchanged. -/
def removeFavoriteSt (st : Option String) (url : String) : Option String :=
  match decodeFavState st with
  | some items => some (stringifyList (removeFavorite items url))
  | none => st

/-- The clear-favorites handler (script.js lines 314-317):
`localStorage.removeItem(DEFAULT_STORAGE_KEY)`, so the key is absent
afterwards whatever the previous state was. -/
def clearFavoritesSt (_ : Option String) : Option String := none

/-- A Favorites Store operation. -/
inductive FavOp where
  | add (url : String) : FavOp
  | remove (url : String) : FavOp
  | clear : FavOp

/-- One store operation at the list level.  `clear` removes the key, and
the next load of the absent key decodes to the empty list. -/
def applyFavOp (l : List String) : FavOp → List String
  | FavOp.add u => saveFavorite l u
  | FavOp.remove u => removeFavorite l u
  | FavOp.clear => []

/-- A sequence of store operations starting from the empty list (the state
on first access, when nothing is persisted). -/
def runFavOps (ops : List FavOp) : List String :=
  ops.foldl applyFavOp []

/-- A sequence of `add` calls starting from the empty list. -/
def runAdds (us : List String) : List String :=
  us.foldl saveFavorite []

/-- ASCII-faithful model of `String.prototype.toLowerCase` (the source
only filters over URLs; `Char.toLower` lowercases exactly ASCII). -/
def jsToLower (s : String) : String :=
  String.mk (s.data.map Char.toLower)

/-- Is this a whitespace character for `String.prototype.trim`
(ASCII portion). -/
def isTrimWs (c : Char) : Bool :=
  c = ' ' || c = '\t' || c = '\n' || c = '\r' || c = '\u000b' || c = '\u000c'

/-- ASCII-faithful model of `String.prototype.trim`. -/
def jsTrim (s : String) : String :=
  String.mk (((s.data.dropWhile isTrimWs).reverse.dropWhile isTrimWs).reverse)

/-- Substring test on character lists, as `String.prototype.includes`:
true exactly when the pattern occurs contiguously (and always true for
the empty pattern). -/
def containsSub : List Char → List Char → Bool
  | s, pat =>
    if pat.isPrefixOf s then true
    else
      match s with
      | [] => false
      | _ :: rest => containsSub rest pat

/-- `String.prototype.includes` on strings. -/
def strIncludes (s pat : String) : Bool :=
  containsSub s.data pat.data

/-- Case-insensitive containment, the notion used by the specification:
the haystack contains the needle after lowercasing both. -/
def ciContains (hay needle : String) : Bool :=
  strIncludes (jsToLower hay) (jsToLower needle)

/-- One rendered gallery thumbnail: its url (`img` `data-src`), its
caption (`figcaption` text) and whether it is currently displayed
(`style.display` not `"none"`). -/
structure Thumb where
  url : String
  caption : String
  visible : Bool
deriving DecidableEq

/-- The rendered gallery: either the distinguishable placeholder shown for
an empty favorites list (script.js lines 253-257) or the list of
thumbnails in list order. -/
inductive GalleryView where
  | empty : GalleryView
  | thumbs (ts : List Thumb) : GalleryView
deriving DecidableEq

/-- The caption of a thumbnail (script.js line 264):
`url.split("/").slice(-1)[0] || "image"` — the last `/`-separated segment,
with the literal `"image"` when that segment is empty. -/
def captionOf (url : String) : String :=
  let segs := (url.data.splitOn '/')
  let last := segs.getLastD []
  if last = [] then "image" else String.mk last

/-- Stated from the specification's words, for comparison with the code
(claim C7): an item is shown exactly when the filter substring is empty
or the item's caption or URL contains it case-insensitively. -/
def claimGalleryShows (filter url : String) : Bool :=
  decide (filter = "") || ciContains (captionOf url) filter || ciContains url filter

/-- `renderGallery` (script.js lines 250-270) as a pure projection of the
decoded list: the placeholder for an empty list, otherwise one visible
thumbnail per item, in order. -/
def renderGallery (items : List String) : GalleryView :=
  if items.isEmpty then GalleryView.empty
  else GalleryView.thumbs (items.map (fun url => Thumb.mk url (captionOf url) true))

/-- The filter input handler's query: `filterInput.value.trim().toLowerCase()`
(script.js line 321). -/
def filterQuery (inputValue : String) : String :=
  jsToLower (jsTrim inputValue)

/-- The filter handler (script.js lines 320-333) applied to the rendered
gallery: each thumbnail is shown exactly when the query is empty or its
lowercased caption or lowercased url contains the query; the placeholder
has no thumbnails to filter. -/
def applyFilter (q : String) : GalleryView → GalleryView
  | GalleryView.empty => GalleryView.empty
  | GalleryView.thumbs ts =>
    GalleryView.thumbs (ts.map (fun t =>
      Thumb.mk t.url t.caption
        (decide (q = "") || strIncludes (jsToLower t.caption) q
          || strIncludes (jsToLower t.url) q)))

/-- The urls of the thumbnails the rendered gallery currently displays. -/
def visibleUrls : GalleryView → List String
  | GalleryView.empty => []
  | GalleryView.thumbs ts => (ts.filter (fun t => t.visible)).map (fun t => t.url)

/-- The modal's state: whether it is hidden (`hidden` class / aria-hidden),
the large image source `modalImg.src`, and the metadata text
`modalInfo.textContent`. -/
structure ModalState where
  hidden : Bool
  imgSrc : String
  infoText : String
deriving DecidableEq

/-- `openModal(url)` (script.js lines 294-299): sets the image source and
the info text to the url and unhides the modal, from any state. -/
def openModal (_ : ModalState) (url : String) : ModalState :=
  ModalState.mk false url url

/-- `closeModal` (script.js lines 307-311): hides the modal and clears
`modalImg.src`; `modalInfo.textContent` is not touched. -/
def closeModal (st : ModalState) : ModalState :=
  ModalState.mk true "" st.infoText

/-- Modelled from the spec: the initial modal state is the closed state
(the page markup carrying the initial `hidden` class is not part of
src/); image source and info text start empty. -/
def modalInit : ModalState :=
  ModalState.mk true "" ""

/-- A Modal Controller event. -/
inductive ModalOp where
  | openEv (url : String) : ModalOp
  | closeEv : ModalOp

/-- One modal transition. -/
def modalStep (st : ModalState) : ModalOp → ModalState
  | ModalOp.openEv u => openModal st u
  | ModalOp.closeEv => closeModal st

/-- The modal state after a sequence of events from the initial state. -/
def runModal (ops : List ModalOp) : ModalState :=
  ops.foldl modalStep modalInit


/-- Concrete checks of the `JSON.parse` model against the behaviors the
source relies on: the default text, whitespace, escapes, the non-array
values the grammar accepts, trailing commas and leading zeros rejected,
and a plain word as a syntax error. -/
theorem jsonParse_behavior_checks :
    jsonParse "[]" = Except.ok (Json.arr []) ∧
    jsonParse "  [ \"a\" , \"b\\n\" ]  " =
      Except.ok (Json.arr [Json.str "a", Json.str "b\n"]) ∧
    jsonParse "null" = Except.ok Json.null ∧
    jsonParse "[1, true, \x7b\"k\": \"v\"\x7d]" =
      Except.ok (Json.arr [Json.num "1", Json.bool true, Json.obj [("k", Json.str "v")]]) ∧
    jsonParse "-2.5e+7" = Except.ok (Json.num "-2.5e+7") ∧
    jsonParse "[\"a\",]" = Except.error () ∧
    jsonParse "01" = Except.error () ∧
    jsonParse "oops" = Except.error () :=
  ⟨rfl, rfl, rfl, rfl, rfl, rfl, rfl, rfl⟩

/-- Concrete checks of the decoded storage states and captions. -/
theorem favorites_decode_checks :
    decodeFavState none = some [] ∧
    decodeFavState (some "") = some [] ∧
    decodeFavState (some "[\"x\"]") = some ["x"] ∧
    decodeFavState (some "oops") = none ∧
    captionOf "http://a.test/x.png" = "x.png" ∧
    captionOf "http://a.test/" = "image" ∧
    captionOf "" = "image" ∧
    captionOf "abc" = "abc" :=
  ⟨rfl, rfl, rfl, rfl, rfl, rfl, rfl, rfl⟩

theorem hexVal_hexDigitChar : ∀ v : Nat, v < 16 → hexVal (hexDigitChar v) = some v := by
  decide

theorem parseStringBody_escapeChar (c : Char) (tail : List Char) :
    parseStringBody (escapeChar c ++ tail) =
      Except.map (fun p => (c :: p.1, p.2)) (parseStringBody tail) := by
  by_cases h1 : c = '"'
  · subst h1; rfl
  by_cases h2 : c = '\\'
  · subst h2; rfl
  by_cases h3 : c = '\u0008'
  · subst h3; rfl
  by_cases h4 : c = '\t'
  · subst h4; rfl
  by_cases h5 : c = '\n'
  · subst h5; rfl
  by_cases h6 : c = '\u000c'
  · subst h6; rfl
  by_cases h7 : c = '\r'
  · subst h7; rfl
  by_cases h8 : c.toNat < 32
  · have hdiv : c.toNat / 16 < 16 := by omega
    have hmod : c.toNat % 16 < 16 := by omega
    have hval : c.toNat / 16 * 16 + c.toNat % 16 = c.toNat := by omega
    simp only [escapeChar, if_neg h1, if_neg h2, if_neg h3, if_neg h4, if_neg h5,
      if_neg h6, if_neg h7, if_pos h8, List.cons_append, List.nil_append]
    rw [parseStringBody.eq_def]
    simp only [hexVal_hexDigitChar _ hdiv, hexVal_hexDigitChar _ hmod,
      if_neg (show ¬ ('\\' : Char) = '"' by decide),
      (show hexVal '0' = some 0 by rfl), Nat.zero_mul, Nat.zero_add]
    simp only [hval, Char.ofNat_toNat]
    simp
  · simp only [escapeChar, if_neg h1, if_neg h2, if_neg h3, if_neg h4, if_neg h5,
      if_neg h6, if_neg h7, if_neg h8, List.cons_append, List.nil_append]
    rw [parseStringBody.eq_def]
    simp only [if_neg h1, if_neg h2, if_neg h8]

theorem parseStringBody_escapeString (s r : List Char) :
    parseStringBody (escapeString s ++ '"' :: r) = Except.ok (s, r) := by
  induction s with
  | nil =>
    simp only [escapeString, List.nil_append]
    rw [parseStringBody.eq_def]
    simp
  | cons c cs ih =>
    rw [escapeString, List.append_assoc, parseStringBody_escapeChar, ih]
    rfl

theorem except_bind_ok {α β : Type} (v : α) (f : α → Except Unit β) :
    Except.bind (Except.ok v) f = f v := rfl

theorem skipWs_cons (c : Char) (cs : List Char)
    (h : ¬(c = ' ' ∨ c = '\t' ∨ c = '\n' ∨ c = '\r')) :
    skipWs (c :: cs) = c :: cs := by
  rw [skipWs.eq_def]
  simp only [if_neg h]

theorem parseJ_succ (f : Nat) : parseJ (f + 1) = parseJStep (parseJ f) := rfl

theorem elemsTail_length (xs : List String) : xs.length ≤ (elemsTail xs).length := by
  induction xs with
  | nil => simp [elemsTail]
  | cons x xs ih =>
    simp only [elemsTail, List.length_cons, List.length_append]
    omega

theorem parseJ_val_strElem (x : String) (rest : List Char) (f2 : Nat) :
    parseJ (f2 + 1) PM.val ('"' :: (escapeString x.data ++ '"' :: rest)) =
      Except.ok (Json.str x, rest) := by
  rw [parseJ_succ]
  simp only [parseJStep]
  rw [skipWs_cons _ _ (by decide)]
  simp only [if_pos rfl]
  rw [parseStringBody_escapeString]
  rfl

theorem parseJ_els_elemsTail (xs : List String) (r : List Char) :
    ∀ f : Nat, 2 * xs.length + 1 ≤ f →
      parseJ f PM.els (elemsTail xs ++ ']' :: r) =
        Except.ok (Json.arr (xs.map Json.str), r) := by
  induction xs with
  | nil =>
    intro f hf
    obtain ⟨f1, rfl⟩ : ∃ f1, f = f1 + 1 := ⟨f - 1, by omega⟩
    rw [parseJ_succ]
    simp only [parseJStep, elemsTail, List.nil_append]
    rw [skipWs_cons _ _ (by decide)]
    simp
  | cons x xs ih =>
    intro f hf
    simp only [List.length_cons] at hf
    obtain ⟨f1, rfl⟩ : ∃ f1, f = f1 + 1 := ⟨f - 1, by omega⟩
    have hx : elemsTail (x :: xs) ++ ']' :: r =
        ',' :: ('"' :: (escapeString x.data ++ '"' :: (elemsTail xs ++ ']' :: r))) := by
      simp [elemsTail, stringifyStrChars, List.append_assoc]
    rw [hx, parseJ_succ]
    simp only [parseJStep]
    rw [skipWs_cons _ _ (by decide)]
    simp only [if_neg (show ¬ (',' : Char) = ']' by decide), if_pos rfl]
    obtain ⟨f2, rfl⟩ : ∃ f2, f1 = f2 + 1 := ⟨f1 - 1, by omega⟩
    have hfle : 2 * xs.length + 1 ≤ f2 + 1 := by omega
    rw [parseJ_val_strElem, except_bind_ok, ih (f2 + 1) hfle, except_bind_ok]
    simp

theorem jsonParse_stringifyList (l : List String) :
    jsonParse (stringifyList l) = Except.ok (Json.arr (l.map Json.str)) := by
  cases l with
  | nil => rfl
  | cons x xs =>
    have hlen : xs.length ≤ (stringifyListChars (x :: xs)).length := by
      have h1 := elemsTail_length xs
      simp only [stringifyListChars, List.length_cons, List.length_append]
      omega
    have hshape : stringifyListChars (x :: xs) =
        '[' :: ('"' :: (escapeString x.data ++ '"' :: (elemsTail xs ++ ']' :: []))) := by
      simp [stringifyListChars, stringifyStrChars, List.append_assoc]
    have hparse : ∀ f, 2 * xs.length + 1 ≤ f →
        parseJ (f + 1) PM.val
          ('[' :: ('"' :: (escapeString x.data ++ '"' :: (elemsTail xs ++ ']' :: [])))) =
          Except.ok (Json.arr (Json.str x :: xs.map Json.str), []) := by
      intro f hf
      rw [parseJ_succ]
      simp only [parseJStep]
      rw [skipWs_cons _ _ (by decide)]
      simp only [if_neg (show ¬ ('[' : Char) = '"' by decide), if_pos rfl]
      rw [skipWs_cons _ _ (by decide)]
      simp only [if_neg (show ¬ ('"' : Char) = ']' by decide)]
      obtain ⟨f2, rfl⟩ : ∃ f2, f = f2 + 1 := ⟨f - 1, by omega⟩
      rw [parseJ_val_strElem, except_bind_ok,
        parseJ_els_elemsTail xs [] _ (by omega), except_bind_ok]
      simp
    have hfuel : 2 * xs.length + 1 ≤ 2 * (stringifyListChars (x :: xs)).length + 1 := by
      omega
    have hmain := hparse (2 * (stringifyListChars (x :: xs)).length + 1) hfuel
    rw [← hshape] at hmain
    simp only [jsonParse]
    rw [show (stringifyList (x :: xs)).data = stringifyListChars (x :: xs) from rfl]
    rw [show 2 * (stringifyListChars (x :: xs)).length + 2 =
      (2 * (stringifyListChars (x :: xs)).length + 1) + 1 from rfl]
    rw [hmain]
    simp [skipWs.eq_def]

theorem stringifyList_ne_empty (l : List String) : ¬ stringifyList l = "" := by
  intro h
  have hd : stringifyListChars l = ([] : List Char) := congrArg String.data h
  cases l with
  | nil => simp [stringifyListChars] at hd
  | cons x xs => simp [stringifyListChars] at hd

theorem loadFavorites_stringifyList (l : List String) :
    loadFavorites (some (stringifyList l)) = Except.ok (Json.arr (l.map Json.str)) := by
  simp only [loadFavorites, getItemOrDefault, if_neg (stringifyList_ne_empty l)]
  exact jsonParse_stringifyList l

theorem strListOfJson_map (l : List String) :
    strListOfJson (l.map Json.str) = some l := by
  induction l with
  | nil => rfl
  | cons x xs ih => simp [strListOfJson, ih]

theorem decodeFavState_stringifyList (l : List String) :
    decodeFavState (some (stringifyList l)) = some l := by
  simp only [decodeFavState, loadFavorites_stringifyList, asStringList, strListOfJson_map]

/-- C1 counterexample: with the malformed value "oops" stored under the
favorites key, the adapter's load is the thrown parse error, not the empty
sequence — the claim's "malformed value never surfaces an error" fails. -/
theorem load_malformed_counterexample :
    loadFavorites (some "oops") = Except.error () ∧
      ¬ loadFavorites (some "oops") = Except.ok (Json.arr []) := by
  constructor
  · rfl
  · intro h
    rw [show loadFavorites (some "oops") = Except.error () from rfl] at h
    exact Except.noConfusion h

/-- C1 (amended): load returns the stored sequence of strings when the
value is well-formed, and the empty sequence when the key is absent or the
value is the empty string; a malformed stored value, however, makes
JSON.parse throw, and that error reaches the caller instead of being
swallowed as an empty sequence. -/
theorem load_spec_amended (l : List String) :
    loadFavorites none = Except.ok (Json.arr []) ∧
    loadFavorites (some "") = Except.ok (Json.arr []) ∧
    loadFavorites (some (stringifyList l)) = Except.ok (Json.arr (l.map Json.str)) ∧
    loadFavorites (some "oops") = Except.error () :=
  ⟨rfl, rfl, loadFavorites_stringifyList l, rfl⟩

theorem applyFavOp_nodup (l : List String) (op : FavOp) (h : l.Nodup) :
    (applyFavOp l op).Nodup := by
  cases op with
  | add u =>
    simp only [applyFavOp, saveFavorite]
    split
    · exact h
    · exact List.nodup_cons.mpr ⟨by assumption, h⟩
  | remove u => exact List.Nodup.filter _ h
  | clear => exact List.nodup_nil

theorem foldl_applyFavOp_nodup (ops : List FavOp) :
    ∀ l : List String, l.Nodup → (ops.foldl applyFavOp l).Nodup := by
  induction ops with
  | nil => intro l h; exact h
  | cons op ops ih => intro l h; exact ih _ (applyFavOp_nodup l op h)

/-- C2: every sequence of add, remove and clear operations starting from
the empty favorites list yields a list with no two equal url strings. -/
theorem favorites_unique (ops : List FavOp) : (runFavOps ops).Nodup :=
  foldl_applyFavOp_nodup ops [] List.nodup_nil

/-- C3: a sequence of add calls yields the distinct urls in
most-recent-first order (an absent url is prepended, a present one is a
no-op), which is the dedup of the reversed call sequence; in particular
the spec's three-add scenario yields the stated two-element list. -/
theorem favorites_most_recent_first (us : List String) :
    runAdds us = us.reverse.dedup ∧
    runAdds ["http://a.test/x.png", "http://b.test/y.png", "http://a.test/x.png"] =
      ["http://b.test/y.png", "http://a.test/x.png"] := by
  constructor
  · induction us using List.reverseRecOn with
    | nil => rfl
    | append_singleton us u ih =>
      rw [runAdds, List.foldl_append]
      simp only [List.foldl_cons, List.foldl_nil]
      rw [show List.foldl saveFavorite [] us = runAdds us from rfl, ih]
      rw [List.reverse_append]
      simp only [List.reverse_cons, List.reverse_nil, List.nil_append, List.singleton_append]
      by_cases hm : u ∈ us.reverse
      · rw [List.dedup_cons_of_mem hm, saveFavorite, if_pos (List.mem_dedup.mpr hm)]
      · rw [List.dedup_cons_of_not_mem hm, saveFavorite,
          if_neg (fun hc => hm (List.mem_dedup.mp hc))]
  · rfl

/-- C4: add(u) is a no-op exactly when u is already present under
case-sensitive exact match, so a second add(u) right after a first leaves
both the list and the persisted state unchanged. -/
theorem add_idempotent_noop (st : Option String) (l : List String) (u : String)
    (h : decodeFavState st = some l) :
    (saveFavorite l u = l ↔ u ∈ l) ∧
    saveFavorite (saveFavorite l u) u = saveFavorite l u ∧
    saveFavoriteSt (saveFavoriteSt st u) u = saveFavoriteSt st u := by
  refine ⟨⟨?_, ?_⟩, ?_, ?_⟩
  · intro heq
    by_contra hmem
    rw [saveFavorite, if_neg hmem] at heq
    have := congrArg List.length heq
    simp at this
  · intro hmem
    rw [saveFavorite, if_pos hmem]
  · by_cases hmem : u ∈ l
    · have hsl : saveFavorite l u = l := by rw [saveFavorite, if_pos hmem]
      rw [hsl]
      exact hsl
    · have hsl : saveFavorite l u = u :: l := by rw [saveFavorite, if_neg hmem]
      rw [hsl, saveFavorite, if_pos (List.mem_cons_self u l)]
  · by_cases hmem : u ∈ l
    · have h1 : saveFavoriteSt st u = st := by
        simp only [saveFavoriteSt, h, if_pos hmem]
      rw [h1]
      exact h1
    · have h1 : saveFavoriteSt st u = some (stringifyList (u :: l)) := by
        simp only [saveFavoriteSt, h, if_neg hmem]
      rw [h1]
      simp only [saveFavoriteSt, decodeFavState_stringifyList,
        if_pos (List.mem_cons_self u l)]

theorem add_idempotent_noop_witness :
    decodeFavState none = some [] ∧
    ((saveFavorite [] "u" = [] ↔ "u" ∈ ([] : List String)) ∧
      saveFavorite (saveFavorite [] "u") "u" = saveFavorite [] "u" ∧
      saveFavoriteSt (saveFavoriteSt none "u") "u" = saveFavoriteSt none "u") :=
  ⟨rfl, add_idempotent_noop none [] "u" rfl⟩

/-- C5: remove(u) removes all entries equal to u and persists the result,
so a later load never yields u; removing an absent url leaves the list
unchanged (the operation is total, not an error). -/
theorem remove_spec (st : Option String) (l : List String) (u : String)
    (h : decodeFavState st = some l) :
    ¬ u ∈ removeFavorite l u ∧
    (¬ u ∈ l → removeFavorite l u = l) ∧
    removeFavoriteSt st u = some (stringifyList (removeFavorite l u)) ∧
    decodeFavState (removeFavoriteSt st u) = some (removeFavorite l u) := by
  refine ⟨?_, ?_, ?_, ?_⟩
  · simp [removeFavorite, List.mem_filter]
  · intro hmem
    rw [removeFavorite]
    exact List.filter_eq_self.mpr
      (fun a ha => bne_iff_ne.mpr (fun heq => hmem (heq ▸ ha)))
  · simp only [removeFavoriteSt, h]
  · simp only [removeFavoriteSt, h, decodeFavState_stringifyList]

theorem remove_spec_witness :
    decodeFavState none = some [] ∧
    (¬ "x" ∈ removeFavorite [] "x" ∧
      (¬ "x" ∈ ([] : List String) → removeFavorite [] "x" = []) ∧
      removeFavoriteSt none "x" = some (stringifyList (removeFavorite [] "x")) ∧
      decodeFavState (removeFavoriteSt none "x") = some (removeFavorite [] "x")) :=
  ⟨rfl, remove_spec none [] "x" rfl⟩

/-- C6: after the clear operation the key is absent, so a subsequent
adapter load yields the empty sequence and the decoded list is empty. -/
theorem clear_spec (st : Option String) :
    clearFavoritesSt st = none ∧
    loadFavorites (clearFavoritesSt st) = Except.ok (Json.arr []) ∧
    decodeFavState (clearFavoritesSt st) = some [] :=
  ⟨rfl, rfl, rfl⟩

/-- C10: the add operation validates nothing beyond the duplicate check:
any absent string — the empty string included — is prepended and
persisted, so the data model's non-emptiness of url is not enforced. -/
theorem add_no_validation (st : Option String) (l : List String) (u : String)
    (hmem : ¬ u ∈ l) (hst : decodeFavState st = some l) :
    saveFavorite l u = u :: l ∧
    saveFavoriteSt st u = some (stringifyList (u :: l)) := by
  constructor
  · rw [saveFavorite, if_neg hmem]
  · simp only [saveFavoriteSt, hst, if_neg hmem]

theorem add_no_validation_witness :
    ¬ "" ∈ ([] : List String) ∧ decodeFavState none = some [] ∧
    (saveFavorite [] "" = [""] ∧ saveFavoriteSt none "" = some (stringifyList [""])) :=
  ⟨by decide, rfl, add_no_validation none [] "" (by decide) rfl⟩

theorem renderGallery_cons (i : String) (is : List String) :
    renderGallery (i :: is) =
      GalleryView.thumbs ((i :: is).map (fun url => Thumb.mk url (captionOf url) true)) := by
  simp [renderGallery]

theorem string_mk_eq_empty (d : List Char) : (String.mk d = "") ↔ d = [] := by
  rw [String.ext_iff]

theorem jsToLower_eq_empty (s : String) : (jsToLower s = "") ↔ s = "" := by
  obtain ⟨d⟩ := s
  simp only [jsToLower]
  rw [string_mk_eq_empty, show (String.mk d = "") ↔ d = [] from string_mk_eq_empty d]
  simp

/-- C7: the rendered-and-filtered gallery displays exactly the items that
the specification's filter condition selects — the filter substring is
empty or the caption (last path segment, with literal fallback) or the
url contains it case-insensitively — and an empty filter input leaves the
rendered gallery unchanged. -/
theorem gallery_filter_spec (items : List String) (t : String) :
    visibleUrls (applyFilter (filterQuery t) (renderGallery items)) =
      items.filter (fun u => claimGalleryShows (jsTrim t) u) ∧
    applyFilter (filterQuery "") (renderGallery items) = renderGallery items := by
  have hpred : ∀ u : String,
      (decide (filterQuery t = "") || strIncludes (jsToLower (captionOf u)) (filterQuery t)
        || strIncludes (jsToLower u) (filterQuery t)) = claimGalleryShows (jsTrim t) u := by
    intro u
    simp only [claimGalleryShows, ciContains, filterQuery]
    rw [decide_eq_decide.mpr (jsToLower_eq_empty (jsTrim t))]
  constructor
  · cases items with
    | nil => rfl
    | cons i is =>
      rw [renderGallery_cons]
      simp only [applyFilter, visibleUrls, List.map_map]
      rw [List.filter_map, List.map_map]
      simp only [Function.comp_def]
      simp only [hpred]
      rw [show (fun u => (Thumb.mk u (captionOf u)
        (claimGalleryShows (jsTrim t) u)).url) = (fun u : String => u) from rfl]
      rw [List.map_id']
  · have hq : filterQuery "" = "" := rfl
    rw [hq]
    cases items with
    | nil => rfl
    | cons i is =>
      rw [renderGallery_cons]
      simp only [applyFilter, List.map_map]
      simp

/-- C8 counterexample: with one favorite and the filter "zzz", which
matches neither its caption nor its url, the renderer's output is the
thumbnail list with that item hidden — not the distinguishable
empty-state descriptor the claim promises for an empty filtered result. -/
theorem gallery_empty_counterexample :
    applyFilter (filterQuery "zzz") (renderGallery ["http://a.test/x.png"]) =
      GalleryView.thumbs [Thumb.mk "http://a.test/x.png" "x.png" false] ∧
    ¬ applyFilter (filterQuery "zzz") (renderGallery ["http://a.test/x.png"]) =
      GalleryView.empty := by
  constructor
  · rfl
  · intro h
    rw [show applyFilter (filterQuery "zzz") (renderGallery ["http://a.test/x.png"]) =
      GalleryView.thumbs [Thumb.mk "http://a.test/x.png" "x.png" false] from rfl] at h
    exact GalleryView.noConfusion h

/-- C8 (amended): the distinguishable empty-state descriptor appears
exactly when the favorites list itself is empty; a filter that excludes
every item of a nonempty list leaves the thumbnail sequence (hidden), not
the empty-state descriptor. -/
theorem gallery_empty_spec_amended (items : List String) (t : String) :
    (renderGallery items = GalleryView.empty ↔ items = []) ∧
    (applyFilter (filterQuery t) (renderGallery items) = GalleryView.empty ↔ items = []) := by
  cases items with
  | nil => exact ⟨⟨fun _ => rfl, fun _ => rfl⟩, ⟨fun _ => rfl, fun _ => rfl⟩⟩
  | cons i is =>
    have h1 : renderGallery (i :: is) =
        GalleryView.thumbs ((i :: is).map (fun url => Thumb.mk url (captionOf url) true)) := by
      simp [renderGallery]
    rw [h1]
    constructor
    · simp
    · simp [applyFilter]

/-- C9 counterexample: open then close reaches a closed state that still
holds the opened url in the info text, a state distinct from the initial
closed state with cleared payload — so close() does not clear the whole
detail payload and the controller reaches more states than the claimed
two. -/
theorem modal_counterexample :
    runModal [ModalOp.openEv "http://a.test/x.png", ModalOp.closeEv] =
      ModalState.mk true "" "http://a.test/x.png" ∧
    ¬ runModal [ModalOp.openEv "http://a.test/x.png", ModalOp.closeEv] = modalInit := by
  constructor
  · rfl
  · intro h
    rw [show runModal [ModalOp.openEv "http://a.test/x.png", ModalOp.closeEv] =
      ModalState.mk true "" "http://a.test/x.png" from rfl] at h
    have h2 := congrArg ModalState.infoText h
    simp [modalInit] at h2

/-- C9 (amended): open(url) from either state enters the open state with
the image source and info text both set to url; close() hides the modal
and clears the image source but keeps the info text, so the reachable
states are the initial closed state, the open states, and closed states
retaining the last opened url in the info text — projected onto the
hidden flag and the image source this is exactly the claimed two-state
machine. -/
theorem modal_machine_amended (st : ModalState) (u : String) (ops : List ModalOp) :
    openModal st u = ModalState.mk false u u ∧
    closeModal st = ModalState.mk true "" st.infoText ∧
    (runModal ops = modalInit ∨
      (∃ v, runModal ops = ModalState.mk false v v) ∨
      (∃ v, runModal ops = ModalState.mk true "" v)) := by
  refine ⟨rfl, rfl, ?_⟩
  have key : ∀ (l : List ModalOp) (s : ModalState),
      (s = modalInit ∨ (∃ v, s = ModalState.mk false v v) ∨
        (∃ v, s = ModalState.mk true "" v)) →
      (List.foldl modalStep s l = modalInit ∨
        (∃ v, List.foldl modalStep s l = ModalState.mk false v v) ∨
        (∃ v, List.foldl modalStep s l = ModalState.mk true "" v)) := by
    intro l
    induction l with
    | nil => intro s hs; exact hs
    | cons op rest ih =>
      intro s _
      rw [List.foldl_cons]
      apply ih
      cases op with
      | openEv v => exact Or.inr (Or.inl ⟨v, rfl⟩)
      | closeEv => exact Or.inr (Or.inr ⟨s.infoText, rfl⟩)
  exact key ops modalInit (Or.inl rfl)
